import Mathlib

/-!
Shallow embedding of `src/kiosk_controller/main.py` (PhiWag97/golden-plate),
the availability-tracking and target-resolution engine of a kiosk-display
controller.  Pure data manipulations are translated as Lean functions;
the stateful control loop is translated as explicit state passing; the
probe result and the cache-file content are explicit parameters standing
for the I/O the Python code performs.  Python `int` is modelled as `Int`,
Python strings as `String`; timestamps (`time.time()`, `time.monotonic()`)
are modelled as `Int` parameters.
-/

namespace Kiosk

/-- The fields of `Config` that the modelled code paths read
(`dataclass Config`, main.py lines 31-76).  The remaining fields
(timeouts, paths, X11 handles, browser knobs) are consumed only by the
out-of-model I/O layers and do not influence the functions embedded here.
Values are Python ints. -/
structure Config where
  router_port : Int
  aida_port : Int
  fails_to_down : Int
  oks_to_up : Int
  deriving DecidableEq, Repr

/-- The dataclass defaults of `Config` (main.py lines 34, 37, 42, 43). -/
def defaultConfig : Config :=
  { router_port := 8765, aida_port := 1111, fails_to_down := 3, oks_to_up := 2 }

/-- `dataclass State` (main.py lines 79-88).  `mode` is the Python string
"UP"/"DOWN"; `target_ip` is `Optional[str]`; streaks are Python ints;
`down_since` is an optional timestamp and `last_discovery_ts` a timestamp
(modelled as `Int`). -/
structure State where
  mode : String
  target_ip : Option String
  ok_streak : Int
  fail_streak : Int
  down_since : Option Int
  last_discovery_ts : Int
  deriving DecidableEq, Repr

/-- Python truthiness of an `Optional[str]`: `None` and `""` are falsy. -/
def truthyOptStr : Option String → Bool
  | none => false
  | some s => !(s == "")

/- ----------------------------------------------------------------
   Target cache (`class TargetCache`, main.py lines 456-497)
   ---------------------------------------------------------------- -/

/-- One element of the `candidates` list of `target_ips.json`.
`item.get("ip")` returning `None` (key absent) behaves exactly like the
empty string everywhere the code inspects it (both are falsy and neither
can match a host/seed string), so the absent key is collapsed into
`ip = ""`.  `last_ok` goes through Python `int(...)`, hence `Int`. -/
structure CacheEntry where
  ip : String
  lastOk : Int
  deriving DecidableEq, Repr

/-- The observable content of the cache file as the two Python readers
see it.  The readers protect different prefixes of their work:
`load_ips` runs its ENTIRE body inside its `try` (lines 461-476), while
`save_ok_ip` only wraps `exists`/`read_text`/`json.loads`/`.get`
(lines 481-486) — its keep loop (lines 490-495) runs OUTSIDE the `try`
and can raise.  Constructors:

* `missing` — `cache_file.exists()` is false: `load_ips` returns `[]`
  early, `save_ok_ip` proceeds with `existing = []`.
* `malformed` — the content already fails `read_text`/`json.loads`/
  `data.get("candidates", [])`: `load_ips` returns `[]`, `save_ok_ip`
  catches the error and proceeds with `existing = []`.
* `crashingKeep` — the content passes `save_ok_ip`'s `try` but makes its
  keep loop raise before the write: a `candidates` value that is not a
  list of dicts (`item.get` → `AttributeError`), an entry with a truthy
  unhashable `ip` (`old_ip in seen` → `TypeError`), or a kept entry
  whose `last_ok` defeats `int(...)` (`ValueError`/`TypeError`).
  `save_ok_ip` raises and writes nothing; on every such content
  `load_ips` hits the same defect inside its own `try` (the sort key
  `int(x.get("last_ok", 0))` runs on every entry and `ip not in seen`
  hashes every truthy ip) and returns `[]`.
* `mixedSkip es` — entries that `save_ok_ip`'s loop skips BEFORE their
  `int(...)` (falsy `ip`, or an `ip` duplicating an already-seen one,
  with a non-int-coercible `last_ok`) make the two readers disagree:
  `save_ok_ip` completes using the well-typed kept-visible entries `es`,
  while `load_ips` returns `[]` (its sort `int(...)`s every entry).
  For entries whose skipping depends on the saved ip itself the
  classification is per call; each call behaves like `crashingKeep` or
  like a `mixedSkip`/`valid` content.
* `valid es` — a dict whose `candidates` are dicts with string (or
  absent/falsy, collapsed to `""`) `ip` and int-coercible `last_ok`.
  Truthy non-string hashable ips (e.g. numbers) behave as opaque keys
  throughout (truthiness, set membership, equality) and are represented
  by their string counterparts. -/
inductive CacheFile where
  | missing : CacheFile
  | malformed : CacheFile
  | crashingKeep : CacheFile
  | mixedSkip : List CacheEntry → CacheFile
  | valid : List CacheEntry → CacheFile
  deriving DecidableEq, Repr

/-- The well-typed candidate entries visible to `save_ok_ip`'s keep loop:
`[]` for a missing or malformed file (lines 485-486), the kept-visible
entries for `mixedSkip`, the entries themselves for `valid`.  For
`crashingKeep` the loop raises before completing any read; `[]` is the
convention here — `save_ok_ip` below never consumes it on that path. -/
def entriesOf : CacheFile → List CacheEntry
  | .missing => []
  | .malformed => []
  | .crashingKeep => []
  | .mixedSkip es => es
  | .valid es => es

/-- Stable insertion of an entry in front of the first strictly-smaller
`last_ok`.  `insertDesc`/`sortDesc` together realise the observable
behaviour of CPython's stable `list.sort(key=lambda x: int(x.get("last_ok", 0)), reverse=True)`
(main.py line 466): descending keys, equal keys keep their original
relative order. -/
def insertDesc (x : CacheEntry) : List CacheEntry → List CacheEntry
  | [] => [x]
  | h :: t => if h.lastOk ≤ x.lastOk then x :: h :: t else h :: insertDesc x t

/-- Stable descending sort by `last_ok` (main.py line 466). -/
def sortDesc : List CacheEntry → List CacheEntry
  | [] => []
  | x :: xs => insertDesc x (sortDesc xs)

/-- First-occurrence deduplication with an explicit `seen` accumulator:
the `seen = set(); for ip in ips: ...` loop of `load_ips`
(main.py lines 468-473); also the shape of the seed loop of
`bounded_discovery`. -/
def dedupFirstAux (seen : List String) : List String → List String
  | [] => []
  | ip :: rest =>
      if ip ∈ seen then dedupFirstAux seen rest
      else ip :: dedupFirstAux (ip :: seen) rest

/-- First-occurrence deduplication of a string list. -/
def dedupFirst (l : List String) : List String := dedupFirstAux [] l

/-- `TargetCache.load_ips` (main.py lines 460-476): missing file → `[]`;
any exception anywhere in the body — JSON parse failure, the sort key's
`int(...)` on `crashingKeep`/`mixedSkip` contents, unhashable-ip
membership — is caught by the enclosing `try` → `[]`; otherwise sort the
candidates by `last_ok` descending (stable), keep the truthy `ip` fields
in that order, de-duplicate keeping first occurrences, and truncate to
`max_n`. -/
def load_ips (f : CacheFile) (max_n : Nat) : List String :=
  match f with
  | .missing => []
  | .malformed => []
  | .crashingKeep => []
  | .mixedSkip _ => []
  | .valid es =>
      let cand := sortDesc es
      let ips := (cand.filter fun c => !(c.ip == "")).map CacheEntry.ip
      (dedupFirst ips).take max_n

/-- The `for item in existing` loop of `save_ok_ip` (main.py lines 490-495):
skip falsy or already-seen ips, keep the remaining entries in their file
order (each rebuilt as `{"ip": old_ip, "last_ok": int(...)}`, i.e. with
unchanged fields in this model). -/
def saveKeepAux (seen : List String) : List CacheEntry → List CacheEntry
  | [] => []
  | item :: rest =>
      if item.ip = "" ∨ item.ip ∈ seen then saveKeepAux seen rest
      else item :: saveKeepAux (item.ip :: seen) rest

/-- The `candidates` list that `save_ok_ip` writes (main.py lines 488-497):
`{ip, now}` first, then the kept prior entries, truncated to `max_n`. -/
def saveCandidates (ip : String) (now : Int) (existing : List CacheEntry)
    (max_n : Nat) : List CacheEntry :=
  (⟨ip, now⟩ :: saveKeepAux [ip] existing).take max_n

/-- `TargetCache.save_ok_ip` (main.py lines 478-497) as a transformer of
the cache-file content.  On `crashingKeep` contents the keep loop —
which runs OUTSIDE the function's `try` — raises (`AttributeError`,
`TypeError` or `ValueError`, depending on the defect) before
`atomic_write_text` is reached, so nothing is written and the file is
left unchanged: modelled as `none`.  Otherwise the function completes:
it reads the prior candidates (empty on a missing or malformed file),
builds the new list and writes it atomically — modelled as `some` of the
written content.  `now` stands for `int(time.time())`. -/
def save_ok_ip (ip : String) (now : Int) (f : CacheFile) (max_n : Nat) : Option CacheFile :=
  match f with
  | .crashingKeep => none
  | _ => some (.valid (saveCandidates ip now (entriesOf f) max_n))

/- ----------------------------------------------------------------
   Health prober (`http_healthcheck`, main.py lines 559-582)
   ---------------------------------------------------------------- -/

/-- The outcome of the single `GET` request issued by `http_healthcheck`:
either a response arrived with some status code, or the attempt ended in
a socket timeout, a connection-level error, or an HTTP-protocol
exception. -/
inductive ProbeOutcome where
  | response (status : Int)
  | timeoutError
  | connectionError
  | httpException
  deriving DecidableEq, Repr

/-- `http_healthcheck` (main.py lines 559-582): the function issues one
request and returns `resp.status == 200`; the surrounding
`try/except Exception: return False` maps every failing outcome to
`False`, and the `finally` block swallows any error from `conn.close()`
in its own inner `try/except: pass`, so the function is total and
consumes exactly one request outcome (no retry loop exists). -/
def http_healthcheck : ProbeOutcome → Bool
  | .response st => st == 200
  | .timeoutError => false
  | .connectionError => false
  | .httpException => false

/- ----------------------------------------------------------------
   Bounded discovery scan order (`bounded_discovery`, main.py lines 585-601)
   ---------------------------------------------------------------- -/

/-- Acceptance of a string by `ipaddress.IPv4Address` (CPython ≥ 3.9.5):
exactly four dot-separated decimal octets, each of 1-3 digits with no
leading zero, each valuing at most 255.  This is the `try:
ipaddress.IPv4Address(ip) ... except: pass` validity test of
`bounded_discovery` (main.py lines 591-597). -/
def splitOnDot : List Char → List (List Char)
  | [] => [[]]
  | c :: rest =>
      let r := splitOnDot rest
      if c == '.' then [] :: r
      else
        match r with
        | [] => [[c]]
        | g :: gs => (c :: g) :: gs

/-- Numeric value of a decimal digit string. -/
def decimalVal (cs : List Char) : Nat :=
  cs.foldl (fun acc c => acc * 10 + (c.toNat - '0'.toNat)) 0

/-- One octet of a dotted-quad address: 1-3 digits, no leading zero,
value at most 255. -/
def octetOk (cs : List Char) : Bool :=
  decide (1 ≤ cs.length) && decide (cs.length ≤ 3) && cs.all Char.isDigit &&
  (match cs with
   | c :: _ :: _ => !(c == '0')
   | _ => true) &&
  decide (decimalVal cs ≤ 255)

/-- String acceptance of `ipaddress.IPv4Address`. -/
def validIPv4 (s : String) : Bool :=
  let parts := splitOnDot s.data
  parts.length == 4 && parts.all octetOk

/-- The seed loop of `bounded_discovery` (main.py lines 588-597): keep
the seeds accepted by `ipaddress.IPv4Address`, skipping the ones already
in `seen`, adding each kept seed to `seen` — i.e. first-occurrence
de-duplication interleaved with the validity filter.  After the loop
`seen` holds exactly the kept seeds. -/
def discovery_base (seen : List String) : List String → List String
  | [] => []
  | ip :: rest =>
      if validIPv4 ip then
        if ip ∈ seen then discovery_base seen rest
        else ip :: discovery_base (ip :: seen) rest
      else discovery_base seen rest

/-- The `scan_list` of `bounded_discovery` (main.py lines 599-601):
`base + [ip for ip in all_hosts if ip not in seen]`, where `all_hosts`
is the shuffled enumeration of `network.hosts()` and `seen` is, after
the seed loop, the set of elements of `base`.  The shuffled host list is
a parameter here (`random.shuffle` permutes `all_hosts` in place). -/
def scan_list (seeds : List String) (shuffledHosts : List String) : List String :=
  let base := discovery_base [] seeds
  base ++ shuffledHosts.filter (fun ip => !(base.contains ip))

/- ----------------------------------------------------------------
   Control loop (`KioskController`, main.py lines 757-831)
   ---------------------------------------------------------------- -/

/-- The Python exceptions relevant to the modelled control flow.
`attributeError a` is the `AttributeError` raised when an undefined
attribute `a` is looked up on `self`. -/
inductive PyExc where
  | attributeError (attr : String)
  | osError (msg : String)
  | systemExit
  | keyboardInterrupt
  deriving DecidableEq, Repr

/-- Whether an exception class derives `Exception` (and is therefore
caught by the `except Exception` clause of `KioskController.run`,
main.py line 829).  In Python, `SystemExit` and `KeyboardInterrupt`
derive only `BaseException`. -/
def derivesException : PyExc → Bool
  | .systemExit => false
  | .keyboardInterrupt => false
  | .attributeError _ => true
  | .osError _ => true

/-- The observable result of one `KioskController.tick` invocation:
the state as mutated up to the point where the tick returned or raised,
the exception raised (if any), the arguments of the `router.update` call
if it was reached, the ip passed to `cache.save_ok_ip` if that call was
reached, and whether `fx.ensure_running` was reached. -/
structure TickResult where
  state : State
  raised : Option PyExc
  routerUpdate : Option (String × Option String × String)
  cacheSaved : Option String
  browserEnsured : Bool
  deriving DecidableEq, Repr

/-- `KioskController.panel_url` (main.py lines 780-783). -/
def panel_url (cfg : Config) (s : State) : String :=
  if s.mode == "UP" && truthyOptStr s.target_ip then
    "http://" ++ s.target_ip.getD "" ++ ":" ++ toString cfg.aida_port ++ "/"
  else
    ""

/-- Lines 786-788 of `tick`: `ok = False; if self.state.target_ip:
ok = http_healthcheck(self.cfg, self.state.target_ip)` — in this model
the healthcheck outcome for a given ip is the oracle `hc`. -/
def tickOk (hc : String → Bool) (s : State) : Bool :=
  match s.target_ip with
  | some ip => if ip == "" then false else hc ip
  | none => false

/-- Lines 790-795 of `tick`: the streak update on probe outcome `ok`. -/
def streakUpdate (ok : Bool) (s : State) : State :=
  if ok then { s with ok_streak := s.ok_streak + 1, fail_streak := 0 }
  else { s with fail_streak := s.fail_streak + 1, ok_streak := 0 }

/-- Lines 797-801 of `tick`: the `next_mode` computation. -/
def nextMode (cfg : Config) (s1 : State) : String :=
  if cfg.fails_to_down ≤ s1.fail_streak then "DOWN"
  else if cfg.oks_to_up ≤ s1.ok_streak then "UP"
  else s1.mode

/-- `KioskController.tick` (main.py lines 785-816), executed sequentially
on the mutable `self.state`.  `hc` is that tick's `http_healthcheck`
oracle.  The class `KioskController` defines no attribute
`on_mode_change` and no attribute `maybe_discover` (its only attributes
are `__init__`, `panel_url`, `tick`, `run` and the instance fields set in
`__init__`), so the calls `self.on_mode_change(next_mode)` (line 804) and
`self.maybe_discover()` (line 807) raise `AttributeError` at the
attribute lookup, aborting the tick at that point; note that nothing in
`tick` ever assigns `self.state.mode`. -/
def tickRun (cfg : Config) (hc : String → Bool) (s : State) : TickResult :=
  let s1 := streakUpdate (tickOk hc s) s
  let next_mode := nextMode cfg s1
  if next_mode ≠ s1.mode then
    { state := s1, raised := some (.attributeError "on_mode_change"),
      routerUpdate := none, cacheSaved := none, browserEnsured := false }
  else if s1.mode = "DOWN" then
    { state := s1, raised := some (.attributeError "maybe_discover"),
      routerUpdate := none, cacheSaved := none, browserEnsured := false }
  else
    { state := s1, raised := none,
      routerUpdate := some (s1.mode, s1.target_ip, panel_url cfg s1),
      cacheSaved := if truthyOptStr s1.target_ip then s1.target_ip else none,
      browserEnsured := true }

/-- One iteration of the `while True` loop of `KioskController.run`
(main.py lines 826-831): run `tick`; an exception deriving `Exception`
is caught by `except Exception as e`, logged, and the loop proceeds with
the state as `tick` left it; any other exception would propagate. -/
def runStep (cfg : Config) (hc : String → Bool) (s : State) : Except PyExc State :=
  let r := tickRun cfg hc s
  match r.raised with
  | some e => if derivesException e then .ok r.state else .error e
  | none => .ok r.state

/-- The `State` of a freshly constructed `KioskController`
(main.py lines 764, 772-773): a default `State()` whose `target_ip` is
`cached[0] if cached else None` for the loaded cache list `cached`. -/
def initState (cached : List String) : State :=
  { mode := "DOWN", target_ip := cached.head?, ok_streak := 0,
    fail_streak := 0, down_since := none, last_discovery_ts := 0 }

/-- The loop state after `n` ticks of `KioskController.run`.  Tick `i`
uses the healthcheck oracle `probes i`.  The loop keeps the state exactly
as `tick` left it (the `except Exception` clause only logs — see
`runStep`; that no exception escapes is proved below). -/
def runTicks (cfg : Config) (probes : Nat → String → Bool) : Nat → State → State
  | 0, s => s
  | n + 1, s => (tickRun cfg (probes n) (runTicks cfg probes n s)).state

/-- Proof-side companion of `dedupFirstAux`: the same first-occurrence
de-duplication carried out on whole cache entries, keyed by the `ip`
field.  It is used to relate the ip list returned by `load_ips` to the
entries (and hence the `last_ok` values) those ips came from. -/
def dedupEntriesAux (seen : List String) : List CacheEntry → List CacheEntry
  | [] => []
  | e :: rest =>
      if e.ip ∈ seen then dedupEntriesAux seen rest
      else e :: dedupEntriesAux (e.ip :: seen) rest

/- ----------------------------------------------------------------
   Lemmas about the stable descending sort
   ---------------------------------------------------------------- -/

/-- The descending-by-`last_ok` ordering relation of the cache. -/
def leDesc (a b : CacheEntry) : Prop := b.lastOk ≤ a.lastOk

lemma insertDesc_perm (x : CacheEntry) (l : List CacheEntry) :
    List.Perm (insertDesc x l) (x :: l) := by
  induction l with
  | nil => simp [insertDesc]
  | cons h t ih =>
    by_cases hc : h.lastOk ≤ x.lastOk
    · simp [insertDesc, hc]
    · simp only [insertDesc, if_neg hc]
      exact (ih.cons h).trans (List.Perm.swap x h t)

lemma sortDesc_perm (l : List CacheEntry) : List.Perm (sortDesc l) l := by
  induction l with
  | nil => simp [sortDesc]
  | cons x xs ih =>
    simp only [sortDesc]
    exact (insertDesc_perm x (sortDesc xs)).trans (ih.cons x)

lemma insertDesc_pairwise {x : CacheEntry} {l : List CacheEntry}
    (hl : List.Pairwise leDesc l) : List.Pairwise leDesc (insertDesc x l) := by
  induction l with
  | nil => simp [insertDesc, List.pairwise_cons]
  | cons h t ih =>
    rcases List.pairwise_cons.mp hl with ⟨hh, ht⟩
    by_cases hc : h.lastOk ≤ x.lastOk
    · simp only [insertDesc, if_pos hc]
      refine List.pairwise_cons.mpr ⟨?_, hl⟩
      intro b hb
      rcases List.mem_cons.mp hb with rfl | hbt
      · exact hc
      · exact le_trans (hh b hbt) hc
    · simp only [insertDesc, if_neg hc]
      refine List.pairwise_cons.mpr ⟨?_, ih ht⟩
      intro b hb
      rcases List.mem_cons.mp ((insertDesc_perm x t).mem_iff.mp hb) with rfl | hbt
      · exact le_of_not_le hc
      · exact hh b hbt

lemma sortDesc_pairwise (l : List CacheEntry) : List.Pairwise leDesc (sortDesc l) := by
  induction l with
  | nil => simp [sortDesc]
  | cons x xs ih => exact insertDesc_pairwise ih

lemma insertDesc_top {x : CacheEntry} {l : List CacheEntry}
    (h : ∀ y ∈ l, y.lastOk ≤ x.lastOk) : insertDesc x l = x :: l := by
  cases l with
  | nil => rfl
  | cons a t => simp [insertDesc, h a (List.mem_cons_self a t)]

lemma sortDesc_cons_top {x : CacheEntry} {l : List CacheEntry}
    (h : ∀ y ∈ l, y.lastOk ≤ x.lastOk) : sortDesc (x :: l) = x :: sortDesc l := by
  simp only [sortDesc]
  exact insertDesc_top fun y hy => h y ((sortDesc_perm l).mem_iff.mp hy)

/- ----------------------------------------------------------------
   Lemmas about first-occurrence de-duplication
   ---------------------------------------------------------------- -/

lemma dedupFirstAux_nodup (l : List String) : ∀ seen : List String,
    (dedupFirstAux seen l).Nodup ∧ ∀ x ∈ dedupFirstAux seen l, x ∉ seen := by
  induction l with
  | nil => intro seen; simp [dedupFirstAux]
  | cons ip rest ih =>
    intro seen
    by_cases hm : ip ∈ seen
    · simpa only [dedupFirstAux, if_pos hm] using ih seen
    · simp only [dedupFirstAux, if_neg hm]
      obtain ⟨hnd, hns⟩ := ih (ip :: seen)
      refine ⟨List.nodup_cons.mpr ⟨fun hmem => ?_, hnd⟩, ?_⟩
      · exact hns ip hmem (List.mem_cons_self ip seen)
      · intro x hx
        rcases List.mem_cons.mp hx with rfl | hx'
        · exact hm
        · exact fun hxs => hns x hx' (List.mem_cons_of_mem ip hxs)

lemma dedupFirstAux_map (l : List CacheEntry) : ∀ seen : List String,
    dedupFirstAux seen (l.map CacheEntry.ip)
      = (dedupEntriesAux seen l).map CacheEntry.ip := by
  induction l with
  | nil => intro seen; rfl
  | cons e rest ih =>
    intro seen
    by_cases hm : e.ip ∈ seen
    · simp only [List.map_cons, dedupFirstAux, dedupEntriesAux, if_pos hm]
      exact ih seen
    · simp only [List.map_cons, dedupFirstAux, dedupEntriesAux, if_neg hm]
      rw [ih (e.ip :: seen)]

lemma dedupEntriesAux_sublist (l : List CacheEntry) : ∀ seen : List String,
    (dedupEntriesAux seen l).Sublist l := by
  induction l with
  | nil => intro seen; simp [dedupEntriesAux]
  | cons e rest ih =>
    intro seen
    by_cases hm : e.ip ∈ seen
    · simp only [dedupEntriesAux, if_pos hm]
      exact (ih seen).cons e
    · simp only [dedupEntriesAux, if_neg hm]
      exact (ih (e.ip :: seen)).cons₂ e

/- ----------------------------------------------------------------
   Lemmas about the kept prior entries of `save_ok_ip`
   ---------------------------------------------------------------- -/

lemma saveKeepAux_sublist (l : List CacheEntry) : ∀ seen : List String,
    (saveKeepAux seen l).Sublist l := by
  induction l with
  | nil => intro seen; simp [saveKeepAux]
  | cons item rest ih =>
    intro seen
    by_cases hm : item.ip = "" ∨ item.ip ∈ seen
    · simp only [saveKeepAux, if_pos hm]
      exact (ih seen).cons item
    · simp only [saveKeepAux, if_neg hm]
      exact (ih (item.ip :: seen)).cons₂ item

lemma saveKeepAux_nodup (l : List CacheEntry) : ∀ seen : List String,
    ((saveKeepAux seen l).map CacheEntry.ip).Nodup
      ∧ ∀ x ∈ (saveKeepAux seen l).map CacheEntry.ip, x ∉ seen := by
  induction l with
  | nil => intro seen; simp [saveKeepAux]
  | cons item rest ih =>
    intro seen
    by_cases hm : item.ip = "" ∨ item.ip ∈ seen
    · simpa only [saveKeepAux, if_pos hm] using ih seen
    · simp only [saveKeepAux, if_neg hm, List.map_cons]
      push_neg at hm
      obtain ⟨hnd, hns⟩ := ih (item.ip :: seen)
      refine ⟨List.nodup_cons.mpr ⟨fun hmem => ?_, hnd⟩, ?_⟩
      · exact hns item.ip hmem (List.mem_cons_self item.ip seen)
      · intro x hx
        rcases List.mem_cons.mp hx with rfl | hx'
        · exact hm.2
        · exact fun hxs => hns x hx' (List.mem_cons_of_mem item.ip hxs)

/- ----------------------------------------------------------------
   Lemmas about `tick` and the control loop
   ---------------------------------------------------------------- -/

lemma streakUpdate_mode (ok : Bool) (s : State) :
    (streakUpdate ok s).mode = s.mode := by
  cases ok <;> simp [streakUpdate]

lemma tickRun_state (cfg : Config) (hc : String → Bool) (s : State) :
    (tickRun cfg hc s).state = streakUpdate (tickOk hc s) s := by
  simp only [tickRun]
  split
  · rfl
  · split <;> rfl

lemma tickRun_mode (cfg : Config) (hc : String → Bool) (s : State) :
    (tickRun cfg hc s).state.mode = s.mode := by
  rw [tickRun_state, streakUpdate_mode]

/-- From a DOWN state every `tick` aborts with an `AttributeError` — at
`self.on_mode_change` when the hysteresis asks for a transition, at
`self.maybe_discover` otherwise — before reaching the cache write, the
`router.update` call or the browser watchdog. -/
lemma tickRun_down (cfg : Config) (hc : String → Bool) (s : State)
    (hmode : s.mode = "DOWN") :
    ((tickRun cfg hc s).raised = some (PyExc.attributeError "on_mode_change")
      ∨ (tickRun cfg hc s).raised = some (PyExc.attributeError "maybe_discover"))
    ∧ (tickRun cfg hc s).routerUpdate = none
    ∧ (tickRun cfg hc s).cacheSaved = none
    ∧ (tickRun cfg hc s).browserEnsured = false := by
  have hm1 : (streakUpdate (tickOk hc s) s).mode = "DOWN" := by
    rw [streakUpdate_mode]; exact hmode
  simp only [tickRun]
  split
  · exact ⟨Or.inl rfl, rfl, rfl, rfl⟩
  · by_cases hd : (streakUpdate (tickOk hc s) s).mode = "DOWN"
    · refine ⟨Or.inr ?_, ?_, ?_, ?_⟩ <;> simp [if_pos hd]
    · exact absurd hm1 hd

/-- The only exception `tick` ever raises is an `AttributeError`. -/
lemma tickRun_raised_cases (cfg : Config) (hc : String → Bool) (s : State) :
    (tickRun cfg hc s).raised = none
      ∨ ∃ a, (tickRun cfg hc s).raised = some (PyExc.attributeError a) := by
  simp only [tickRun]
  split
  · exact Or.inr ⟨_, rfl⟩
  · by_cases hd : (streakUpdate (tickOk hc s) s).mode = "DOWN"
    · exact Or.inr ⟨"maybe_discover", by simp [if_pos hd]⟩
    · exact Or.inl (by simp [if_neg hd])

lemma streakUpdate_streaks (ok : Bool) (s : State)
    (h1 : 0 ≤ s.ok_streak) (h2 : 0 ≤ s.fail_streak) :
    0 ≤ (streakUpdate ok s).ok_streak ∧ 0 ≤ (streakUpdate ok s).fail_streak
      ∧ (streakUpdate ok s).ok_streak * (streakUpdate ok s).fail_streak = 0 := by
  cases ok <;> simp [streakUpdate] <;> omega

lemma runTicks_mode (cfg : Config) (cached : List String)
    (probes : Nat → String → Bool) : ∀ n : Nat,
    (runTicks cfg probes n (initState cached)).mode = "DOWN" := by
  intro n
  induction n with
  | zero => rfl
  | succ n ih =>
    simp only [runTicks]
    rw [tickRun_mode]
    exact ih

lemma runTicks_streaks (cfg : Config) (cached : List String)
    (probes : Nat → String → Bool) : ∀ n : Nat,
    0 ≤ (runTicks cfg probes n (initState cached)).ok_streak
    ∧ 0 ≤ (runTicks cfg probes n (initState cached)).fail_streak
    ∧ (runTicks cfg probes n (initState cached)).ok_streak
        * (runTicks cfg probes n (initState cached)).fail_streak = 0 := by
  intro n
  induction n with
  | zero => simp [runTicks, initState]
  | succ n ih =>
    simp only [runTicks]
    rw [tickRun_state]
    exact streakUpdate_streaks _ _ ih.1 ih.2.1

/- ----------------------------------------------------------------
   Claim theorems: control loop and prober
   ---------------------------------------------------------------- -/

/-- C3: in every reachable state of `KioskController` the mode is
`"DOWN"`: after any number of ticks from the initial state, whatever the
probe outcomes, the mode is still `"DOWN"`; the next `tick` invocation
raises `AttributeError` at the undefined `on_mode_change` or the
undefined `maybe_discover`; that tick performs no `router.update` call,
no cache write and no browser supervision; and it leaves `mode`
unchanged (nothing in `tick` reassigns it). -/
theorem mode_forever_down_invariant (cfg : Config) (cached : List String)
    (probes : Nat → String → Bool) (n : Nat) :
    (runTicks cfg probes n (initState cached)).mode = "DOWN"
    ∧ ((tickRun cfg (probes n) (runTicks cfg probes n (initState cached))).raised
          = some (PyExc.attributeError "on_mode_change")
        ∨ (tickRun cfg (probes n) (runTicks cfg probes n (initState cached))).raised
          = some (PyExc.attributeError "maybe_discover"))
    ∧ (tickRun cfg (probes n) (runTicks cfg probes n (initState cached))).routerUpdate = none
    ∧ (tickRun cfg (probes n) (runTicks cfg probes n (initState cached))).cacheSaved = none
    ∧ (tickRun cfg (probes n) (runTicks cfg probes n (initState cached))).browserEnsured = false
    ∧ (tickRun cfg (probes n) (runTicks cfg probes n (initState cached))).state.mode = "DOWN" := by
  have hmode := runTicks_mode cfg cached probes n
  obtain ⟨hr, hru, hcs, hbe⟩ := tickRun_down cfg (probes n) _ hmode
  refine ⟨hmode, hr, hru, hcs, hbe, ?_⟩
  rw [tickRun_mode]
  exact hmode

/-- C4: after every tick, in every execution and for every sequence of
probe outcomes, both streaks are non-negative and at least one of them is
zero (`ok_streak * fail_streak == 0`). -/
theorem streak_mutual_exclusion (cfg : Config) (cached : List String)
    (probes : Nat → String → Bool) (n : Nat) :
    0 ≤ (runTicks cfg probes n (initState cached)).ok_streak
    ∧ 0 ≤ (runTicks cfg probes n (initState cached)).fail_streak
    ∧ (runTicks cfg probes n (initState cached)).ok_streak
        * (runTicks cfg probes n (initState cached)).fail_streak = 0 :=
  runTicks_streaks cfg cached probes n

/-- C5: no exception raised inside a tick propagates out of the control
loop: every exception `tick` raises derives `Exception`, so the
`except Exception` clause of `run` catches it and the loop proceeds to
the next iteration with the state `tick` left behind. -/
theorem run_swallows_tick_exceptions (cfg : Config) (hc : String → Bool) (s : State) :
    ((tickRun cfg hc s).raised.all derivesException) = true
    ∧ runStep cfg hc s = Except.ok (tickRun cfg hc s).state := by
  rcases tickRun_raised_cases cfg hc s with h | ⟨a, h⟩ <;>
    simp [runStep, h, derivesException]

/-- C1 (exhibiting the code bug): with the default configuration
(`oks_to_up = 2`), starting DOWN with cached target `10.0.0.5` set and
every probe succeeding, after two consecutive succeeding probes the
loop state shows `ok_streak = 2` yet the mode at the start of the next
tick is still `"DOWN"`, not `"UP"`: each tick died on the
`AttributeError` for the undefined `on_mode_change`/`maybe_discover`
before any mode assignment. -/
theorem mode_stays_down_after_ok_streak :
    (runTicks defaultConfig (fun _ _ => true) 2 (initState ["10.0.0.5"])).ok_streak = 2
    ∧ (runTicks defaultConfig (fun _ _ => true) 2 (initState ["10.0.0.5"])).mode = "DOWN"
    ∧ ¬ (runTicks defaultConfig (fun _ _ => true) 2 (initState ["10.0.0.5"])).mode = "UP" := by
  decide

/-- C2 (exhibiting the code bug): on a tick whose probe of the current
target succeeds, `tick` raises `AttributeError` at the undefined
`maybe_discover` and never reaches the `router.update` call, so the
router's snapshot does not reflect the result of the tick. -/
theorem router_update_unreachable_on_ok_tick :
    tickOk (fun _ => true) (initState ["10.0.0.5"]) = true
    ∧ (tickRun defaultConfig (fun _ => true) (initState ["10.0.0.5"])).routerUpdate = none
    ∧ (tickRun defaultConfig (fun _ => true) (initState ["10.0.0.5"])).raised
        = some (PyExc.attributeError "maybe_discover") := by
  decide

/-- C6: `http_healthcheck` returns `True` exactly when the single GET
request completes with HTTP status 200; every exception, timeout and
non-200 status yields `False`.  The function consumes one request
outcome (no retry) and is total (never raises). -/
theorem http_healthcheck_iff_status_200 (o : ProbeOutcome) :
    http_healthcheck o = true ↔ o = ProbeOutcome.response 200 := by
  cases o <;> simp [http_healthcheck]

/- ----------------------------------------------------------------
   Claim theorems: target cache
   ---------------------------------------------------------------- -/

instance : DecidableRel leDesc :=
  fun a b => inferInstanceAs (Decidable (b.lastOk ≤ a.lastOk))

/-- C7: `load_ips` never raises (it is total here, with every parse
failure and the missing file mapped to `[]`); it returns at most 5 ips;
and the returned ips are the `ip` fields, in order, of a
descending-by-`last_ok` subsequence of the sorted candidate list —
i.e. the list is ordered most-recently-successful first. -/
theorem load_ips_bounded_sorted_safe (f : CacheFile) :
    (load_ips f 5).length ≤ 5
    ∧ load_ips CacheFile.missing 5 = []
    ∧ load_ips CacheFile.malformed 5 = []
    ∧ ∃ ps : List CacheEntry,
        load_ips f 5 = ps.map CacheEntry.ip
        ∧ List.Pairwise leDesc ps
        ∧ List.Sublist ps (sortDesc (entriesOf f)) := by
  refine ⟨?_, rfl, rfl, ?_⟩
  · cases f with
    | missing => simp [load_ips]
    | malformed => simp [load_ips]
    | crashingKeep => simp [load_ips]
    | mixedSkip es => simp [load_ips]
    | valid es =>
      simp only [load_ips]
      exact List.length_take_le 5 _
  · cases f with
    | missing => exact ⟨[], rfl, List.Pairwise.nil, List.nil_sublist _⟩
    | malformed => exact ⟨[], rfl, List.Pairwise.nil, List.nil_sublist _⟩
    | crashingKeep => exact ⟨[], rfl, List.Pairwise.nil, List.nil_sublist _⟩
    | mixedSkip es => exact ⟨[], rfl, List.Pairwise.nil, List.nil_sublist _⟩
    | valid es =>
      refine ⟨(dedupEntriesAux [] ((sortDesc es).filter (fun c => !(c.ip == "")))).take 5,
        ?_, ?_, ?_⟩
      · simp only [load_ips, dedupFirst]
        rw [dedupFirstAux_map, List.map_take]
      · exact List.Pairwise.sublist
          ((List.take_sublist 5 _).trans (dedupEntriesAux_sublist _ []))
          (List.Pairwise.sublist (List.filter_sublist _) (sortDesc_pairwise es))
      · exact ((List.take_sublist 5 _).trans (dedupEntriesAux_sublist _ [])).trans
          (List.filter_sublist _)

/-- Evaluation helper for C8: loading a file whose head entry dominates
every other entry (`last_ok`-wise) and has a truthy ip starts with that
entry's ip. -/
lemma load_ips_cons_top (x : CacheEntry) (l : List CacheEntry) (n : Nat)
    (hx : ¬ x.ip = "") (hbound : ∀ y ∈ l, y.lastOk ≤ x.lastOk) :
    load_ips (.valid (x :: l)) (n + 1)
      = x.ip :: (dedupFirstAux [x.ip]
          (((sortDesc l).filter (fun c => !(c.ip == ""))).map CacheEntry.ip)).take n := by
  simp only [load_ips]
  rw [sortDesc_cons_top hbound]
  rw [List.filter_cons_of_pos (by simp [hx])]
  simp only [List.map_cons, dedupFirst, dedupFirstAux]
  rw [if_neg (List.not_mem_nil x.ip), List.take_succ_cons]

/-- On every content whose keep loop does not raise, `save_ok_ip`
completes and writes the candidate list built from the entries its loop
kept. -/
lemma save_ok_ip_completes (ip : String) (now : Int) (f : CacheFile) (max_n : Nat)
    (hok : ¬ f = CacheFile.crashingKeep) :
    save_ok_ip ip now f max_n
      = some (.valid (saveCandidates ip now (entriesOf f) max_n)) := by
  cases f with
  | crashingKeep => exact absurd rfl hok
  | missing => rfl
  | malformed => rfl
  | mixedSkip es => rfl
  | valid es => rfl

/-- C8 (counterexample to the claim as stated): with prior cache content
holding an entry whose `last_ok` lies in the future of the save time
(here `10.0.0.9` at 200, save at time 100), `record_success("10.0.0.5")`
completes and writes, yet `load()` on the written file does NOT start
with `10.0.0.5` — the sort by `last_ok` descending puts the
stale-but-future entry first. -/
theorem record_success_load_head_cex :
    save_ok_ip "10.0.0.5" 100 (CacheFile.valid [⟨"10.0.0.9", 200⟩]) 5
      = some (CacheFile.valid [⟨"10.0.0.5", 100⟩, ⟨"10.0.0.9", 200⟩])
    ∧ ¬ ((load_ips (CacheFile.valid [⟨"10.0.0.5", 100⟩, ⟨"10.0.0.9", 200⟩]) 5).head?
          = some "10.0.0.5") := by
  decide

/-- C8 (amended): if `ip` is a truthy (non-empty) string, the prior
content does not make the keep loop of `save_ok_ip` raise (on such
content nothing is written at all), and no keep-visible prior entry
carries a `last_ok` later than the save time, then `record_success(ip)`
writes a file on which `load()` returns a non-empty list starting with
`ip`. -/
theorem record_success_load_head_amended (ip : String) (now : Int) (f : CacheFile)
    (hip : ¬ ip = "") (hbound : ∀ e ∈ entriesOf f, e.lastOk ≤ now)
    (hok : ¬ f = CacheFile.crashingKeep) :
    ∃ g rest, save_ok_ip ip now f 5 = some g ∧ load_ips g 5 = ip :: rest := by
  have hkeep : ∀ y ∈ (saveKeepAux [ip] (entriesOf f)).take 4, y.lastOk ≤ now := by
    intro y hy
    exact hbound y ((saveKeepAux_sublist (entriesOf f) [ip]).subset
      ((List.take_sublist 4 _).subset hy))
  refine ⟨.valid (saveCandidates ip now (entriesOf f) 5),
    (dedupFirstAux [ip]
      (((sortDesc ((saveKeepAux [ip] (entriesOf f)).take 4)).filter
          (fun c => !(c.ip == ""))).map CacheEntry.ip)).take 4,
    save_ok_ip_completes ip now f 5 hok, ?_⟩
  simp only [saveCandidates]
  rw [show (5 : Nat) = 4 + 1 from rfl, List.take_succ_cons]
  exact load_ips_cons_top ⟨ip, now⟩ _ 4 hip hkeep

theorem record_success_load_head_amended_witness :
    ∃ g rest, save_ok_ip "10.0.0.5" 100 CacheFile.missing 5 = some g
      ∧ load_ips g 5 = "10.0.0.5" :: rest :=
  record_success_load_head_amended "10.0.0.5" 100 CacheFile.missing
    (by decide) (by decide) (by decide)

/-- C9 (counterexample to the claim as stated): `save_ok_ip` does not
sort what it writes — it prepends `{ip, now}` to the kept prior entries.
With a prior entry timestamped after the save time (`10.0.0.9` at 200,
save at 100) the written candidate list is not sorted by `last_ok`
descending. -/
theorem save_ok_ip_sorted_cex :
    ¬ List.Pairwise leDesc
        (saveCandidates "10.0.0.5" 100 (entriesOf (CacheFile.valid [⟨"10.0.0.9", 200⟩])) 5) := by
  decide

/-- C9 (amended): the candidate list written by `save_ok_ip` always has
at most 5 entries, unique by `ip`; it is additionally sorted by
`last_ok` descending provided the prior entries were themselves sorted
descending and none is timestamped after the save time. -/
theorem save_ok_ip_file_invariant_amended (ip : String) (now : Int) (f : CacheFile)
    (hsorted : List.Pairwise leDesc (entriesOf f))
    (hbound : ∀ e ∈ entriesOf f, e.lastOk ≤ now) :
    (saveCandidates ip now (entriesOf f) 5).length ≤ 5
    ∧ ((saveCandidates ip now (entriesOf f) 5).map CacheEntry.ip).Nodup
    ∧ List.Pairwise leDesc (saveCandidates ip now (entriesOf f) 5) := by
  simp only [saveCandidates]
  refine ⟨List.length_take_le 5 _, ?_, ?_⟩
  · have h := saveKeepAux_nodup (entriesOf f) [ip]
    have hmain : ((⟨ip, now⟩ :: saveKeepAux [ip] (entriesOf f)).map CacheEntry.ip).Nodup := by
      simp only [List.map_cons]
      refine List.nodup_cons.mpr ⟨fun hmem => ?_, h.1⟩
      exact h.2 ip hmem (List.mem_cons_self ip [])
    exact List.Nodup.sublist ((List.take_sublist 5 _).map CacheEntry.ip) hmain
  · have hkeepPW : List.Pairwise leDesc (saveKeepAux [ip] (entriesOf f)) :=
      List.Pairwise.sublist (saveKeepAux_sublist (entriesOf f) [ip]) hsorted
    have hcons : List.Pairwise leDesc (⟨ip, now⟩ :: saveKeepAux [ip] (entriesOf f)) := by
      refine List.pairwise_cons.mpr ⟨?_, hkeepPW⟩
      intro y hy
      exact hbound y ((saveKeepAux_sublist (entriesOf f) [ip]).subset hy)
    exact List.Pairwise.sublist (List.take_sublist 5 _) hcons

theorem save_ok_ip_file_invariant_amended_witness :
    (saveCandidates "10.0.0.5" 100 (entriesOf (CacheFile.valid [⟨"10.0.0.9", 50⟩])) 5).length ≤ 5
    ∧ ((saveCandidates "10.0.0.5" 100
          (entriesOf (CacheFile.valid [⟨"10.0.0.9", 50⟩])) 5).map CacheEntry.ip).Nodup
    ∧ List.Pairwise leDesc
        (saveCandidates "10.0.0.5" 100 (entriesOf (CacheFile.valid [⟨"10.0.0.9", 50⟩])) 5) :=
  save_ok_ip_file_invariant_amended "10.0.0.5" 100 (CacheFile.valid [⟨"10.0.0.9", 50⟩])
    (by decide) (by decide)

/- ----------------------------------------------------------------
   Claim theorems: bounded discovery scan order
   ---------------------------------------------------------------- -/

/-- The seed loop of `bounded_discovery` is exactly "filter the seeds
through the IPv4 parser, then de-duplicate keeping first occurrences". -/
lemma discovery_base_eq (seeds : List String) : ∀ seen : List String,
    discovery_base seen seeds = dedupFirstAux seen (seeds.filter validIPv4) := by
  induction seeds with
  | nil => intro seen; rfl
  | cons ip rest ih =>
    intro seen
    by_cases hv : validIPv4 ip = true
    · rw [List.filter_cons_of_pos hv]
      by_cases hm : ip ∈ seen
      · simp only [discovery_base, dedupFirstAux, if_pos hv, if_pos hm]
        exact ih seen
      · simp only [discovery_base, dedupFirstAux, if_pos hv, if_neg hm]
        rw [ih (ip :: seen)]
    · rw [List.filter_cons_of_neg (by simpa using hv)]
      simp only [discovery_base, if_neg hv]
      exact ih seen

/-- C10: the scan order built by `bounded_discovery` is the valid seeds,
de-duplicated with their first-occurrence order preserved, followed by a
permutation of the network's host addresses with all (valid) seed
addresses excluded; no address appears twice in the scan order.
`shuffled` is the result of `random.shuffle` on the host enumeration,
hence a permutation of `hosts`; the hosts of an IPv4 network are
pairwise distinct. -/
theorem bounded_discovery_scan_order (seeds hosts shuffled : List String)
    (hperm : List.Perm shuffled hosts) (hnd : hosts.Nodup) :
    scan_list seeds shuffled
      = dedupFirst (seeds.filter validIPv4)
        ++ shuffled.filter (fun ip => !((discovery_base [] seeds).contains ip))
    ∧ List.Perm (shuffled.filter (fun ip => !((discovery_base [] seeds).contains ip)))
        (hosts.filter (fun ip => !((discovery_base [] seeds).contains ip)))
    ∧ (scan_list seeds shuffled).Nodup := by
  have hbase : discovery_base [] seeds = dedupFirst (seeds.filter validIPv4) := by
    rw [discovery_base_eq]; rfl
  refine ⟨?_, hperm.filter _, ?_⟩
  · simp only [scan_list]
    rw [hbase]
  · simp only [scan_list]
    apply List.Nodup.append
    · rw [discovery_base_eq]
      exact (dedupFirstAux_nodup (seeds.filter validIPv4) []).1
    · exact (hperm.nodup_iff.mpr hnd).filter _
    · intro a ha hafil
      have h2 := (List.mem_filter.mp hafil).2
      simp at h2
      exact h2 ha

theorem bounded_discovery_scan_order_witness :
    scan_list ["10.0.0.5", "panel", "10.0.0.5"] ["10.0.0.5", "10.0.0.1"]
      = dedupFirst ((["10.0.0.5", "panel", "10.0.0.5"]).filter validIPv4)
        ++ (["10.0.0.5", "10.0.0.1"]).filter
            (fun ip => !((discovery_base [] ["10.0.0.5", "panel", "10.0.0.5"]).contains ip))
    ∧ List.Perm
        ((["10.0.0.5", "10.0.0.1"]).filter
          (fun ip => !((discovery_base [] ["10.0.0.5", "panel", "10.0.0.5"]).contains ip)))
        ((["10.0.0.1", "10.0.0.5"]).filter
          (fun ip => !((discovery_base [] ["10.0.0.5", "panel", "10.0.0.5"]).contains ip)))
    ∧ (scan_list ["10.0.0.5", "panel", "10.0.0.5"] ["10.0.0.5", "10.0.0.1"]).Nodup :=
  bounded_discovery_scan_order ["10.0.0.5", "panel", "10.0.0.5"]
    ["10.0.0.1", "10.0.0.5"] ["10.0.0.5", "10.0.0.1"] (by decide) (by decide)

end Kiosk
